import Mathlib

/-!
Verification of the action-execution and coordination core of the
Advisor_bot repository (Python), shallowly embedded in Lean 4.

The embedding models the durable store (Supabase tables `events`,
`pending_actions`, `action_logs`, `agent_runs`, `companies`) as an explicit
`DB` state threaded through every operation.  The wall clock
(`datetime.utcnow()`) is modelled as a counter in `DB` that strictly
increases at every read: real timestamps are strictly increasing at
microsecond resolution between successive reads.  A Python callable passed
as `fn` to the executor is modelled as `Op : Nat → Except String Value`,
mapping the zero-based index of the call to either a returned JSON value
(`.ok`) or a raised exception carrying its `str(e)` text (`.error`).
Functions that count invocations of the supplied operation or of event
handlers return that count alongside the result, so that claims of the
form "the operation is never invoked" are directly statable.
-/

namespace AdvisorBot

/-- JSON-like values, used for payloads, results and configuration blobs.
Numbers are modelled as rationals (Python ints and the decimal literals
appearing in the source, e.g. `0.3`, are all rational). -/
inductive Value where
  | null
  | bool (b : Bool)
  | num (q : Rat)
  | str (s : String)
  | arr (xs : List Value)
  | dict (fields : List (String × Value))
deriving Repr

/-- Python truthiness test (`not x`): `None`, `False`, `0`, `""`, `[]`, `{}`
are falsy, everything else truthy. -/
def Value.falsy : Value → Bool
  | .null => true
  | .bool b => !b
  | .num q => q == 0
  | .str s => s == ""
  | .arr xs => xs.isEmpty
  | .dict fs => fs.isEmpty

/-- Python `d.get(k, default)` on a dict; on a non-dict the call would raise
`AttributeError`, which every caller in the modelled code catches with no
prior side effect, so callers pattern-match on `.dict` before using this. -/
def Value.getD (v : Value) (k : String) (d : Value) : Value :=
  match v with
  | .dict fs =>
    match fs.find? (fun p => p.1 == k) with
    | some p => p.2
    | none => d
  | _ => d

/-- Python numeric coercion for comparisons: `bool` is numeric (`True == 1`);
any other non-number makes `<` raise `TypeError` (modelled as `none`). -/
def Value.asNum : Value → Option Rat
  | .num q => some q
  | .bool b => some (if b then 1 else 0)
  | _ => none

/-- Python `d[k] = v` on a dict represented as an insertion-ordered
association list: an existing key is updated in place, a new key appended. -/
def dictSet (fs : List (String × Value)) (k : String) (v : Value) :
    List (String × Value) :=
  if fs.any (fun p => p.1 == k) then
    fs.map (fun p => if p.1 == k then (k, v) else p)
  else fs ++ [(k, v)]

/-- Python `d.update(u)`: every key of `u` is written into `d` in order. -/
def dictUpdate (fs updates : List (String × Value)) : List (String × Value) :=
  updates.foldl (fun acc kv => dictSet acc kv.1 kv.2) fs

/-- ActionLevel from services/executor.py: A autonomous, B supervised,
C assisted. -/
inductive ActionLevel where
  | A
  | B
  | C
deriving Repr, DecidableEq

/-- String value of an action level, as stored in database records. -/
def ActionLevel.toStr : ActionLevel → String
  | .A => "A"
  | .B => "B"
  | .C => "C"

/-- ActionStatus from services/executor.py. -/
inductive ActionStatus where
  | pending
  | running
  | success
  | failed
  | cancelled
deriving Repr, DecidableEq

/-- Action dataclass from services/executor.py. -/
structure Action where
  type : String
  level : ActionLevel
  company_id : String
  agent : String
  payload : Value
  description : String := ""
  preview : Value := .dict []
deriving Repr

/-- ActionResult dataclass from services/executor.py; `executed_at` is a
clock reading. -/
structure ActionResult where
  action_type : String
  status : ActionStatus
  executed_at : Nat
  result : Value := .dict []
  error : String := ""
  attempts : Nat := 1
deriving Repr

/-- Row of the `events` table (see publish_event / get_unprocessed_events in
services/database.py); `id` is the store-assigned key. -/
structure EventRecord where
  id : Nat
  event_type : String
  company_id : String
  payload : Value
  processed : Bool
  created_at : Nat
deriving Repr

/-- Row of the `pending_actions` table (see Executor._queue_for_approval,
approve, reject in services/executor.py). -/
structure PendingRecord where
  id : Nat
  action_type : String
  level : String
  company_id : String
  agent : String
  payload : Value
  description : String
  preview : Value
  status : ActionStatus
  created_at : Nat
  executed_at : Option Nat := none
  result : Option Value := none
deriving Repr

/-- Row of the insert-only `action_logs` audit table (see
Executor._log_action). -/
structure LogRecord where
  action_type : String
  level : String
  company_id : String
  agent : String
  payload : Value
  status : ActionStatus
  result : Value
  error : String
  attempts : Nat
  executed_at : Nat
deriving Repr

/-- Row of the `agent_runs` table (see BaseAgent._log_run in
agents/base.py). -/
structure AgentRunRecord where
  agent : String
  company_id : String
  started_at : Nat
  finished_at : Nat
  duration_seconds : Int
  kpi_name : String
  kpi_value : Rat
  actions_count : Nat
  errors : List String
  success : Bool
deriving Repr

/-- Row of the `companies` table, restricted to the columns the modelled
code reads or writes (`agent_configs`, `updated_at`). -/
structure CompanyRecord where
  id : String
  agent_configs : Value
  updated_at : Option Nat := none
deriving Repr

/-- The durable store plus the wall clock.  `time` advances at each
`datetime.utcnow()` read; `nextId` is the store-assigned key counter for
inserts that return an id. -/
structure DB where
  events : List EventRecord := []
  pending_actions : List PendingRecord := []
  action_logs : List LogRecord := []
  agent_runs : List AgentRunRecord := []
  companies : List CompanyRecord := []
  time : Nat := 0
  nextId : Nat := 0
deriving Repr

/-- One `datetime.utcnow()` read: returns the current instant and advances
the clock. -/
def tick (db : DB) : Nat × DB :=
  (db.time, { db with time := db.time + 1 })

/-- One `time.sleep(d)`: the wall clock advances by the slept duration. -/
def sleep (d : Nat) (db : DB) : DB :=
  { db with time := db.time + d }

/-- A Python callable passed to the executor, indexed by zero-based call
count: `.ok v` models a normal return of `v`, `.error s` models a raised
exception `e` with `str(e) = s`. -/
abbrev Op : Type := Nat → Except String Value

namespace Executor

/-- MAX_ATTEMPTS from services/executor.py. -/
def MAX_ATTEMPTS : Nat := 3

/-- RETRY_DELAYS from services/executor.py (seconds between attempts). -/
def RETRY_DELAYS : List Nat := [1, 3, 9]

/-- Wrapping of the raw return value in _execute_with_retry:
`result if isinstance(result, dict) else {"value": result}`. -/
def wrapResult (v : Value) : Value :=
  match v with
  | .dict fs => .dict fs
  | v => .dict [("value", v)]

/-- Executor._log_action: inserts an audit row into `action_logs`.  In the
source an insert failure is caught and logged and never alters the action
result; the store model makes inserts total, which has the same effect on
every returned value. -/
def logAction (action : Action) (r : ActionResult) (db : DB) : DB :=
  { db with action_logs := db.action_logs ++
      [{ action_type := action.type
         level := action.level.toStr
         company_id := action.company_id
         agent := action.agent
         payload := action.payload
         status := r.status
         result := r.result
         error := r.error
         attempts := r.attempts
         executed_at := r.executed_at }] }

/-- Body of the `for attempt in range(1, MAX_ATTEMPTS + 1)` loop of
Executor._execute_with_retry, entered at attempt number `attempt` with
`remaining` iterations left and `lastError` the text of the last exception.
Returns the action result, the final store, and the number of times the
operation was invoked from this point on. -/
def retryFrom (action : Action) (op : Op) (attempt remaining : Nat)
    (lastError : String) (db : DB) : ActionResult × DB × Nat :=
  match remaining with
  | 0 =>
    let (t, db) := tick db
    let r : ActionResult :=
      { action_type := action.type
        status := .failed
        executed_at := t
        error := lastError
        attempts := MAX_ATTEMPTS }
    (r, logAction action r db, 0)
  | remaining + 1 =>
    match op (attempt - 1) with
    | .ok v =>
      let (t, db) := tick db
      let r : ActionResult :=
        { action_type := action.type
          status := .success
          executed_at := t
          result := wrapResult v
          attempts := attempt }
      (r, logAction action r db, 1)
    | .error e =>
      let db := if attempt < MAX_ATTEMPTS then
          sleep (RETRY_DELAYS.getD (attempt - 1) 0) db
        else db
      let (r, db, n) := retryFrom action op (attempt + 1) remaining e db
      (r, db, n + 1)

/-- Executor._execute_with_retry: up to MAX_ATTEMPTS synchronous calls with
backoff sleeps between failures; logs the terminal result in every case and
never raises.  The third component counts invocations of `op`. -/
def executeWithRetry (action : Action) (op : Op) (db : DB) :
    ActionResult × DB × Nat :=
  retryFrom action op 1 MAX_ATTEMPTS "" db

/-- Executor._queue_for_approval: persists the level-B action as a
`pending` row of `pending_actions` and returns a `pending` result without
executing anything. -/
def queueForApproval (action : Action) (db : DB) : ActionResult × DB :=
  let (tc, db) := tick db
  let rec0 : PendingRecord :=
    { id := db.nextId
      action_type := action.type
      level := action.level.toStr
      company_id := action.company_id
      agent := action.agent
      payload := action.payload
      description := action.description
      preview := action.preview
      status := .pending
      created_at := tc }
  let db := { db with
    pending_actions := db.pending_actions ++ [rec0]
    nextId := db.nextId + 1 }
  let (te, db) := tick db
  ({ action_type := action.type
     status := .pending
     executed_at := te
     result := .dict [("queued", .bool true), ("description", .str action.description)] },
   db)

/-- Executor._log_assisted_action: persists the level-C brief as a
`pending` row and returns a `pending` result. -/
def logAssistedAction (action : Action) (db : DB) : ActionResult × DB :=
  let (tc, db) := tick db
  let rec0 : PendingRecord :=
    { id := db.nextId
      action_type := action.type
      level := action.level.toStr
      company_id := action.company_id
      agent := action.agent
      payload := action.payload
      description := action.description
      preview := action.preview
      status := .pending
      created_at := tc }
  let db := { db with
    pending_actions := db.pending_actions ++ [rec0]
    nextId := db.nextId + 1 }
  let (te, db) := tick db
  ({ action_type := action.type
     status := .pending
     executed_at := te
     result := .dict [("brief_ready", .bool true)] },
   db)

/-- Executor.run: level B is queued for approval, level C logged as a
brief, level A executed with retry.  The third component counts
invocations of `op`. -/
def run (action : Action) (op : Op) (db : DB) : ActionResult × DB × Nat :=
  match action.level with
  | .B => let (r, db) := queueForApproval action db; (r, db, 0)
  | .C => let (r, db) := logAssistedAction action db; (r, db, 0)
  | .A => executeWithRetry action op db

/-- The `select("*").eq("id", id)` lookup at the top of Executor.approve:
first `pending_actions` row with the given id, if any. -/
def findPending (id : Nat) (db : DB) : Option PendingRecord :=
  (db.pending_actions.filter (fun p => p.id == id)).head?

/-- Executor.approve: loads the pending row (returning an `unknown` /
`failed` result when it does not exist), marks it `running`, executes
through the level-A retry path, and writes the terminal status,
`executed_at` and result back onto the row.  The third component counts
invocations of `op`. -/
def approve (id : Nat) (op : Op) (db : DB) : ActionResult × DB × Nat :=
  match findPending id db with
  | none =>
    let (t, db) := tick db
    ({ action_type := "unknown"
       status := .failed
       executed_at := t
       error := "Action introuvable" },
     db, 0)
  | some raw =>
    let action : Action :=
      { type := raw.action_type
        level := .A
        company_id := raw.company_id
        agent := raw.agent
        payload := raw.payload
        description := raw.description }
    let marked := db.pending_actions.map
      (fun p => if p.id == id then { p with status := .running } else p)
    let db := { db with pending_actions := marked }
    let (r, db, n) := executeWithRetry action op db
    let written := db.pending_actions.map
      (fun p => if p.id == id then
          { p with status := r.status
                   executed_at := some r.executed_at
                   result := some r.result }
        else p)
    let db := { db with pending_actions := written }
    (r, db, n)

/-- Executor.reject: stamps every `pending_actions` row with the given id
with status `cancelled` and the current time. -/
def reject (id : Nat) (db : DB) : DB :=
  let (t, db) := tick db
  let written := db.pending_actions.map
    (fun p => if p.id == id then
        { p with status := .cancelled, executed_at := some t }
      else p)
  { db with pending_actions := written }

end Executor

/-- Names bound at module scope of services/database.py: its import list
(`os`, `from typing import Any, Optional`, `from supabase import
create_client, Client`, `from models import ...`, `from dataclasses import
asdict`, `import logging`), the module-level `logger`, and the functions the
module defines.  `_serialize` imports `datetime` locally inside its own
body, which binds nothing at module scope. -/
def databaseModuleScope : List String :=
  ["os", "Any", "Optional", "create_client", "Client",
   "Deal", "Contact", "Invoice", "Task", "Expense",
   "asdict", "logging", "logger",
   "get_client", "save", "save_many", "get", "get_one",
   "publish_event", "get_unprocessed_events", "mark_event_processed",
   "_serialize"]

/-- Whether the name `datetime` resolves inside the body of
the body of `publish_event` in services/database.py. -/
def databaseModuleBindsDatetime : Bool :=
  databaseModuleScope.contains "datetime"

/-- publish_event from services/database.py.  Its first statement after
`get_client()` builds the event dict, whose `created_at` entry evaluates
`datetime.utcnow()`; when `datetime` is not bound at module scope that
evaluation raises `NameError` before the insert, so no row is appended.
On the intended path it appends an Event row with `processed := false`
and returns the inserted row. -/
def publish_event (event_type company_id : String) (payload : Value)
    (db : DB) : Except String (EventRecord × DB) :=
  if databaseModuleBindsDatetime then
    let (t, db) := tick db
    let ev : EventRecord :=
      { id := db.nextId
        event_type := event_type
        company_id := company_id
        payload := payload
        processed := false
        created_at := t }
    .ok (ev, { db with events := db.events ++ [ev], nextId := db.nextId + 1 })
  else
    .error "NameError: name datetime is not defined"

/-- Stable insertion into a list of events sorted by `created_at`, helper
for the `order("created_at")` clause of get_unprocessed_events. -/
def insertByCreated (e : EventRecord) : List EventRecord → List EventRecord
  | [] => [e]
  | x :: xs =>
    if e.created_at ≤ x.created_at then e :: x :: xs
    else x :: insertByCreated e xs

/-- Stable sort of events by `created_at`, modelling the store clause `order("created_at")`. -/
def sortByCreated : List EventRecord → List EventRecord
  | [] => []
  | x :: xs => insertByCreated x (sortByCreated xs)

/-- get_unprocessed_events from services/database.py: the rows of the tenant
with `processed = false`, ordered by `created_at`. -/
def get_unprocessed_events (company_id : String) (db : DB) :
    List EventRecord :=
  sortByCreated (db.events.filter
    (fun e => e.company_id == company_id && e.processed == false))

/-- mark_event_processed from services/database.py: sets
`processed := true` on every `events` row with the given id. -/
def mark_event_processed (event_id : Nat) (db : DB) : DB :=
  let written := db.events.map
    (fun e => if e.id == event_id then { e with processed := true } else e)
  { db with events := written }

/-- update_agent_config from orchestrator/profile.py: reads the company
row, merges `updates` into the config dict of the named agent, writes the merged
configs and a fresh `updated_at` back, and returns whether it succeeded.
Any exception on the way (for instance `.get` or `.update` on a non-dict
stored blob) is caught and yields `false` with no write. -/
def update_agent_config (company_id agent_name : String)
    (updates : List (String × Value)) (db : DB) : Bool × DB :=
  match db.companies.find? (fun c => c.id == company_id) with
  | none => (false, db)
  | some row =>
    match (if row.agent_configs.falsy then Value.dict [] else row.agent_configs) with
    | .dict fs =>
      match Value.getD (.dict fs) agent_name (.dict []) with
      | .dict cfg =>
        let newConfigs :=
          Value.dict (dictSet fs agent_name (.dict (dictUpdate cfg updates)))
        let (t, db) := tick db
        let written := db.companies.map
          (fun c => if c.id == company_id then
              { c with agent_configs := newConfigs, updated_at := some t }
            else c)
        (true, { db with companies := written })
      | _ => (false, db)
    | _ => (false, db)

/-- _append_to_config from orchestrator/router.py: returns the agent configs of the company with `updates` merged into the entry of the named agent, or `{}`
when the row is missing or any step raises (caught in the source). -/
def appendToConfig (company_id agent_name : String)
    (updates : List (String × Value)) (db : DB) : Value :=
  match db.companies.find? (fun c => c.id == company_id) with
  | some row =>
    match (if row.agent_configs.falsy then Value.dict [] else row.agent_configs) with
    | .dict fs =>
      match Value.getD (.dict fs) agent_name (.dict []) with
      | .dict cfg => Value.dict (dictSet fs agent_name (.dict (dictUpdate cfg updates)))
      | _ => Value.dict []
    | _ => Value.dict []
  | none => Value.dict []

/-- _handle_forecast_updated_for_cash from orchestrator/router.py: when the
`confidence` field of the payload is below 0.3, stamps a low-confidence alert into the
revenue_velocity config via _append_to_config and writes it onto the
company row (no `updated_at` on this path).  A payload on which `.get` or
the comparison raises leaves the store untouched (caught by the router). -/
def handleForecastUpdatedForCash (company_id : String) (payload : Value)
    (db : DB) : DB :=
  match payload with
  | .dict _ =>
    match (payload.getD "confidence" (.num 0)).asNum with
    | some c =>
      if c < (3 : Rat) / 10 then
        let (t, db) := tick db
        let cfg := appendToConfig company_id "revenue_velocity"
          [("last_low_confidence_alert", .str (toString t))] db
        let written := db.companies.map
          (fun co => if co.id == company_id then { co with agent_configs := cfg } else co)
        { db with companies := written }
      else db
    | none => db
  | _ => db

/-- _handle_cash_alert_for_revenue from orchestrator/router.py: when
`days_until_critical` is truthy and below 45, sets the
`cash_pressure_mode` flag in the revenue_velocity config.  A payload on
which the comparison raises leaves the store untouched. -/
def handleCashAlertForRevenue (company_id : String) (payload : Value)
    (db : DB) : DB :=
  match payload with
  | .dict _ =>
    let days := payload.getD "days_until_critical" .null
    if days.falsy then db
    else
      match days.asNum with
      | some d =>
        if d < 45 then
          (update_agent_config company_id "revenue_velocity"
            [("cash_pressure_mode", .bool true)] db).2
        else db
      | none => db
  | _ => db

/-- _handle_cac_updated_for_scoring from orchestrator/router.py: when
`cac_by_source` is truthy, stores it and `top_source` in the
revenue_velocity config through two update_agent_config calls. -/
def handleCacUpdatedForScoring (company_id : String) (payload : Value)
    (db : DB) : DB :=
  match payload with
  | .dict _ =>
    let cac := payload.getD "cac_by_source" (.dict [])
    let top := payload.getD "top_source" (.str "")
    if cac.falsy then db
    else
      let db := (update_agent_config company_id "revenue_velocity"
        [("cac_by_source", cac)] db).2
      (update_agent_config company_id "revenue_velocity"
        [("top_acquisition_source", top)] db).2
  | _ => db

/-- An event handler as registered in the routing table:
`(company_id, payload)` against the store. -/
abbrev Handler : Type := String → Value → DB → DB

/-- Lookup `_build_routing_table().get(event_type, [])` from
orchestrator/router.py, written out over the three keys of the table. -/
def handlersFor (event_type : String) : List Handler :=
  if event_type == "forecast_updated" then [handleForecastUpdatedForCash]
  else if event_type == "cash_forecast_updated" then [handleCashAlertForRevenue]
  else if event_type == "cac_updated" then [handleCacUpdatedForScoring]
  else []

/-- One iteration of the event loop in process_events: run every handler
registered for the type of the event (each handler exception is caught in the
source, so a handler is an effect on the store), then mark the event
processed.  Also returns how many handlers were invoked for this event. -/
def processOne (company_id : String) (db : DB) (ev : EventRecord) :
    DB × Nat :=
  let payload := if ev.payload.falsy then Value.dict [] else ev.payload
  let hs := handlersFor ev.event_type
  let db := hs.foldl (fun d h => h company_id payload d) db
  (mark_event_processed ev.id db, hs.length)

/-- The `for event in events` loop of process_events over the snapshot
`evs`: returns the processed count, the final store, and the total number
of handler invocations. -/
def drainLoop (company_id : String) (evs : List EventRecord) (db : DB) :
    Nat × DB × Nat :=
  match evs with
  | [] => (0, db, 0)
  | ev :: rest =>
    let r1 := processOne company_id db ev
    let r2 := drainLoop company_id rest r1.1
    (r2.1 + 1, r2.2.1, r1.2 + r2.2.2)

/-- process_events from orchestrator/router.py: snapshots the unprocessed events of the tenant, returns 0 immediately when there are none, otherwise
drains them all.  The third component counts handler invocations. -/
def process_events (company_id : String) (db : DB) : Nat × DB × Nat :=
  let events := get_unprocessed_events company_id db
  if events.isEmpty then (0, db, 0)
  else drainLoop company_id events db

/-- AgentRunResult dataclass from agents/base.py. -/
structure AgentRunResult where
  agent : String
  company_id : String
  started_at : Nat
  finished_at : Nat
  actions_taken : List Value := []
  kpi_value : Rat := 0
  kpi_name : String := ""
  errors : List String := []
deriving Repr

/-- The `duration_seconds` property: derived, not stored redundantly. -/
def AgentRunResult.duration_seconds (r : AgentRunResult) : Int :=
  (r.finished_at : Int) - (r.started_at : Int)

/-- The `success` property: `len(self.errors) == 0`. -/
def AgentRunResult.success (r : AgentRunResult) : Bool :=
  r.errors.length == 0

/-- BaseAgent._log_run from agents/base.py: inserts the run row into
`agent_runs`.  An insert failure is caught in the source and never alters
the returned result; the store model makes inserts total. -/
def logRun (r : AgentRunResult) (db : DB) : DB :=
  { db with agent_runs := db.agent_runs ++
      [{ agent := r.agent
         company_id := r.company_id
         started_at := r.started_at
         finished_at := r.finished_at
         duration_seconds := r.duration_seconds
         kpi_name := r.kpi_name
         kpi_value := r.kpi_value
         actions_count := r.actions_taken.length
         errors := r.errors
         success := r.success }] }

/-- The `_run` method of a concrete agent: either returns an AgentRunResult or
raises (the `.error` text is `str(e)`), in both cases leaving whatever
side effects it performed on the store. -/
abbrev DomainRun : Type := DB → Except String AgentRunResult × DB

/-- BaseAgent.run from agents/base.py: reads the start time, invokes the
domain method, converts an escaping exception into a failure result whose
sole error is the exception text, persists the result, and returns it. -/
def BaseAgent.run (name company_id : String) (domainRun : DomainRun)
    (db : DB) : AgentRunResult × DB :=
  let (t0, db) := tick db
  match domainRun db with
  | (.ok r, db1) => (r, logRun r db1)
  | (.error e, db1) =>
    let (t1, db2) := tick db1
    let r : AgentRunResult :=
      { agent := name
        company_id := company_id
        started_at := t0
        finished_at := t1
        errors := [e] }
    (r, logRun r db2)

/-! Helper lemmas about the executor. -/

/-- Run on a level-A action is the retry path. -/
theorem Executor.run_level_A (action : Action) (op : Op) (db : DB)
    (h : action.level = .A) :
    Executor.run action op db = Executor.executeWithRetry action op db := by
  unfold Executor.run
  rw [h]

/-- The empty store. -/
def dbEmpty : DB := {}

/-- A concrete level-A action, used as input for evaluations. -/
def actionA0 : Action :=
  { type := "tag_deal_zombie"
    level := .A
    company_id := "c1"
    agent := "revenue_velocity"
    payload := .dict [("deal_id", .str "123")] }

/-- A concrete level-B action, used as input for evaluations. -/
def actionB0 : Action :=
  { type := "send_email"
    level := .B
    company_id := "c1"
    agent := "revenue_velocity"
    payload := .dict [("k", .str "v")]
    description := "send the reminder" }

/-- An operation that raises an exception with empty text on every call
(Python `raise Exception()` has `str(e) = ""`). -/
def opRaiseEmpty : Op := fun _ => .error ""

/-- An operation that raises `boom` on every call. -/
def opRaiseBoom : Op := fun _ => .error "boom"

/-- An operation that raises on its first two calls and then returns
`{fixed: true}`. -/
def opFailTwice : Op := fun k =>
  if k < 2 then .error "boom" else .ok (.dict [("fixed", .bool true)])

/-- An operation that returns `{ok: true}` on every call. -/
def opOk : Op := fun _ => .ok (.dict [("ok", .bool true)])

/-- A concrete stored pending row with id 7, used as input for
evaluations. -/
def pend0 : PendingRecord :=
  { id := 7
    action_type := "send_email"
    level := "B"
    company_id := "c1"
    agent := "revenue_velocity"
    payload := .dict [("k", .str "v")]
    description := "send the reminder"
    preview := .dict []
    status := .pending
    created_at := 0 }

/-- A store holding exactly the pending row `pend0`. -/
def dbPend : DB := { pending_actions := [pend0] }

/-- A pending row with its `executed_at` stamp erased, for comparing
rejection results up to the rejection timestamp. -/
def stripExecutedAt (p : PendingRecord) : PendingRecord :=
  { p with executed_at := none }

/-- C1, amended: for every level-A Action whose operation raises on every
call, `run` returns `failed` with `attempts = 3` and error text equal to
the text of the last exception — hence non-empty whenever the exception
texts are non-empty.  `run` is a total function into `ActionResult`,
modelling that it never raises. -/
theorem claim_C1 (action : Action) (op : Op) (errs : Nat → String) (db : DB)
    (hA : action.level = .A) (h : ∀ k, op k = .error (errs k)) :
    (Executor.run action op db).1.status = .failed ∧
    (Executor.run action op db).1.attempts = 3 ∧
    (Executor.run action op db).1.error = errs 2 ∧
    (errs 2 ≠ "" → (Executor.run action op db).1.error ≠ "") := by
  have h0 := h 0
  have h1 := h 1
  have h2 := h 2
  rw [Executor.run_level_A action op db hA]
  simp [Executor.executeWithRetry, Executor.retryFrom, Executor.MAX_ATTEMPTS,
    h0, h1, h2, tick, sleep, Executor.logAction]

/-- Witness for C1 at a concrete always-raising operation. -/
theorem claim_C1_witness :
    (Executor.run actionA0 opRaiseBoom dbEmpty).1.status = .failed ∧
    (Executor.run actionA0 opRaiseBoom dbEmpty).1.attempts = 3 ∧
    (Executor.run actionA0 opRaiseBoom dbEmpty).1.error = "boom" ∧
    ("boom" ≠ "" →
      (Executor.run actionA0 opRaiseBoom dbEmpty).1.error ≠ "") :=
  claim_C1 actionA0 opRaiseBoom (fun _ => "boom") dbEmpty rfl (fun _ => rfl)

/-- Counterexample to C1 as stated: an operation raising an exception with
empty text on every call makes `run` return `failed` with `attempts = 3`
but with EMPTY error text, refuting the claimed non-empty error. -/
theorem claim_C1_cex :
    (∀ k, opRaiseEmpty k = .error "") ∧
    (Executor.run actionA0 opRaiseEmpty dbEmpty).1.status = .failed ∧
    (Executor.run actionA0 opRaiseEmpty dbEmpty).1.attempts = 3 ∧
    (Executor.run actionA0 opRaiseEmpty dbEmpty).1.error = "" :=
  ⟨fun _ => rfl, rfl, rfl, rfl⟩

/-- C2: for every level-A Action whose operation raises on the first two
calls and returns normally on the third, `run` returns `success` with
`attempts = 3`. -/
theorem claim_C2 (action : Action) (op : Op) (db : DB) (e0 e1 : String)
    (v : Value) (hA : action.level = .A) (h0 : op 0 = .error e0)
    (h1 : op 1 = .error e1) (h2 : op 2 = .ok v) :
    (Executor.run action op db).1.status = .success ∧
    (Executor.run action op db).1.attempts = 3 := by
  rw [Executor.run_level_A action op db hA]
  simp [Executor.executeWithRetry, Executor.retryFrom, Executor.MAX_ATTEMPTS,
    h0, h1, h2, tick, sleep, Executor.logAction]

/-- Witness for C2 at a concrete fail-twice-then-succeed operation. -/
theorem claim_C2_witness :
    (Executor.run actionA0 opFailTwice dbEmpty).1.status = .success ∧
    (Executor.run actionA0 opFailTwice dbEmpty).1.attempts = 3 :=
  claim_C2 actionA0 opFailTwice dbEmpty "boom" "boom"
    (.dict [("fixed", .bool true)]) rfl rfl rfl rfl

/-- C3: for every level-B Action and every operation, `run` never invokes
the operation (the invocation count is 0), returns `pending`, and appends
one `pending` row to `pending_actions`. -/
theorem claim_C3 (action : Action) (op : Op) (db : DB)
    (hB : action.level = .B) :
    (Executor.run action op db).1.status = .pending ∧
    (Executor.run action op db).2.2 = 0 ∧
    ∃ rec, (Executor.run action op db).2.1.pending_actions
        = db.pending_actions ++ [rec] ∧ rec.status = .pending := by
  unfold Executor.run
  rw [hB]
  refine ⟨?_, ?_, ?_⟩
  · simp [Executor.queueForApproval, tick]
  · simp [Executor.queueForApproval, tick]
  · simp only [Executor.queueForApproval, tick]
    exact ⟨_, rfl, rfl⟩

/-- Witness for C3 at a concrete level-B action. -/
theorem claim_C3_witness :
    (Executor.run actionB0 opRaiseBoom dbEmpty).1.status = .pending ∧
    (Executor.run actionB0 opRaiseBoom dbEmpty).2.2 = 0 ∧
    ∃ rec, (Executor.run actionB0 opRaiseBoom dbEmpty).2.1.pending_actions
        = dbEmpty.pending_actions ++ [rec] ∧ rec.status = .pending :=
  claim_C3 actionB0 opRaiseBoom dbEmpty rfl

/-- C4: approving a stored pending action with an operation returning
`{ok: true}` yields `success` with `attempts = 1` and result `{ok: true}`,
and every stored row with that id ends with status `success` (and such a
row exists). -/
theorem claim_C4 (id : Nat) (db : DB) (op : Op) (raw : PendingRecord)
    (hf : Executor.findPending id db = some raw)
    (hop : op 0 = .ok (.dict [("ok", .bool true)])) :
    (Executor.approve id op db).1.status = .success ∧
    (Executor.approve id op db).1.attempts = 1 ∧
    (Executor.approve id op db).1.result = .dict [("ok", .bool true)] ∧
    (∀ p ∈ (Executor.approve id op db).2.1.pending_actions,
      p.id = id → p.status = .success) ∧
    (∃ p ∈ (Executor.approve id op db).2.1.pending_actions, p.id = id) := by
  have hmem : raw ∈ db.pending_actions.filter (fun p => p.id == id) := by
    unfold Executor.findPending at hf
    cases hh : db.pending_actions.filter (fun p => p.id == id) with
    | nil => rw [hh] at hf; simp at hf
    | cons b t =>
      rw [hh] at hf
      simp only [List.head?, Option.some.injEq] at hf
      rw [← hf]
      exact List.mem_cons_self b t
  have hmem' := List.mem_filter.mp hmem
  have hid : raw.id = id := by simpa using hmem'.2
  unfold Executor.approve
  rw [hf]
  simp only [Executor.executeWithRetry, Executor.retryFrom,
    Executor.MAX_ATTEMPTS, hop, Executor.wrapResult, tick,
    Executor.logAction, Nat.sub_self]
  refine ⟨by trivial, by trivial, by trivial, ?_, ?_⟩
  · intro p hp hpid
    rw [List.map_map] at hp
    obtain ⟨q, hq, rfl⟩ := List.mem_map.mp hp
    by_cases h : q.id = id
    · simp [h]
    · simp only [Function.comp_apply, beq_iff_eq, h, if_false] at hpid
  · rw [List.map_map]
    refine ⟨_, List.mem_map_of_mem _ hmem'.1, ?_⟩
    simp [hid]

/-- Witness for C4 at a concrete stored pending row. -/
theorem claim_C4_witness :
    (Executor.approve 7 opOk dbPend).1.status = .success ∧
    (Executor.approve 7 opOk dbPend).1.attempts = 1 ∧
    (Executor.approve 7 opOk dbPend).1.result = .dict [("ok", .bool true)] ∧
    (∀ p ∈ (Executor.approve 7 opOk dbPend).2.1.pending_actions,
      p.id = 7 → p.status = .success) ∧
    (∃ p ∈ (Executor.approve 7 opOk dbPend).2.1.pending_actions, p.id = 7) :=
  claim_C4 7 dbPend opOk pend0 rfl rfl

/-- C9, amended: `reject` marks every stored row with the given id
`cancelled`, and a second `reject` changes nothing except the
`executed_at` stamp, which it overwrites with the later rejection time. -/
theorem claim_C9 (id : Nat) (db : DB) :
    (∀ p ∈ (Executor.reject id db).pending_actions,
      p.id = id → p.status = .cancelled) ∧
    ((Executor.reject id (Executor.reject id db)).pending_actions.map stripExecutedAt
      = (Executor.reject id db).pending_actions.map stripExecutedAt) := by
  constructor
  · intro p hp hpid
    unfold Executor.reject at hp
    simp only [tick] at hp
    obtain ⟨q, hq, rfl⟩ := List.mem_map.mp hp
    by_cases h : q.id = id
    · simp [h]
    · simp only [beq_iff_eq, h, if_false] at hpid
  · unfold Executor.reject
    simp only [tick, List.map_map]
    congr 1
    funext q
    by_cases h : q.id = id <;> simp [stripExecutedAt, h]

/-- Counterexample to C9 as stated: on a store holding one pending row,
rejecting twice leaves a different stored row than rejecting once — the
second call overwrites `executed_at` with the later timestamp. -/
theorem claim_C9_cex :
    (Executor.reject 7 (Executor.reject 7 dbPend)).pending_actions.map
        (fun p => p.executed_at)
      ≠ (Executor.reject 7 dbPend).pending_actions.map
        (fun p => p.executed_at) := by
  decide

/-- C10: approving an id that matches no stored pending action returns an
`unknown` / `failed` result with non-empty error, invokes the operation
zero times, and leaves every table of the store unchanged. -/
theorem claim_C10 (id : Nat) (op : Op) (db : DB)
    (h : Executor.findPending id db = none) :
    (Executor.approve id op db).1.action_type = "unknown" ∧
    (Executor.approve id op db).1.status = .failed ∧
    (Executor.approve id op db).1.error ≠ "" ∧
    (Executor.approve id op db).2.2 = 0 ∧
    (Executor.approve id op db).2.1.pending_actions = db.pending_actions ∧
    (Executor.approve id op db).2.1.events = db.events ∧
    (Executor.approve id op db).2.1.action_logs = db.action_logs ∧
    (Executor.approve id op db).2.1.agent_runs = db.agent_runs ∧
    (Executor.approve id op db).2.1.companies = db.companies := by
  unfold Executor.approve
  rw [h]
  simp [tick]

/-- Witness for C10 at an id absent from the store. -/
theorem claim_C10_witness :
    (Executor.approve 5 opOk dbEmpty).1.action_type = "unknown" ∧
    (Executor.approve 5 opOk dbEmpty).1.status = .failed ∧
    (Executor.approve 5 opOk dbEmpty).1.error ≠ "" ∧
    (Executor.approve 5 opOk dbEmpty).2.2 = 0 ∧
    (Executor.approve 5 opOk dbEmpty).2.1.pending_actions
      = dbEmpty.pending_actions ∧
    (Executor.approve 5 opOk dbEmpty).2.1.events = dbEmpty.events ∧
    (Executor.approve 5 opOk dbEmpty).2.1.action_logs
      = dbEmpty.action_logs ∧
    (Executor.approve 5 opOk dbEmpty).2.1.agent_runs
      = dbEmpty.agent_runs ∧
    (Executor.approve 5 opOk dbEmpty).2.1.companies = dbEmpty.companies :=
  claim_C10 5 opOk dbEmpty rfl

/-- C5 evaluation: every call of publish_event raises `NameError` (the
module never binds `datetime`) and therefore returns no inserted row and
appends nothing — contradicting the claim that it appends an Event with
`processed = false` and returns normally.  The claim is right about the
intent (the docstring of the module itself, the router and BaseAgent._publish all
rely on the append), so the missing import is a code bug. -/
theorem claim_C5 (event_type company_id : String) (payload : Value)
    (db : DB) :
    publish_event event_type company_id payload db
      = .error "NameError: name datetime is not defined" :=
  rfl

/-- A row of `agent_runs` as BaseAgent._log_run serializes a result. -/
def runRecordOf (r : AgentRunResult) : AgentRunRecord :=
  { agent := r.agent
    company_id := r.company_id
    started_at := r.started_at
    finished_at := r.finished_at
    duration_seconds := r.duration_seconds
    kpi_name := r.kpi_name
    kpi_value := r.kpi_value
    actions_count := r.actions_taken.length
    errors := r.errors
    success := r.success }

/-- The serialization in logRun is runRecordOf. -/
theorem logRun_eq (r : AgentRunResult) (db : DB) :
    logRun r db = { db with agent_runs := db.agent_runs ++ [runRecordOf r] } :=
  rfl

/-- C8: when the domain method raises (at any store it may be invoked on)
and, like every real effect, never turns the clock back, the runtime
returns — never raises — a result with `success = false`, non-empty
`errors` and `started_at ≤ finished_at`, persists that exact result to
`agent_runs` before returning, and `success` is equivalent to `errors`
being empty for every result. -/
theorem claim_C8 (name company_id : String) (domainRun : DomainRun)
    (db : DB)
    (herr : ∀ d, ∃ e d1, domainRun d = (.error e, d1))
    (hclk : ∀ d, d.time ≤ (domainRun d).2.time) :
    (BaseAgent.run name company_id domainRun db).1.success = false ∧
    (BaseAgent.run name company_id domainRun db).1.errors ≠ [] ∧
    (BaseAgent.run name company_id domainRun db).1.started_at
      ≤ (BaseAgent.run name company_id domainRun db).1.finished_at ∧
    (∃ pre, (BaseAgent.run name company_id domainRun db).2.agent_runs
      = pre ++ [runRecordOf (BaseAgent.run name company_id domainRun db).1]) ∧
    (∀ r : AgentRunResult, r.success = true ↔ r.errors = []) := by
  obtain ⟨e, d1, hd⟩ := herr { db with time := db.time + 1 }
  have htime : db.time + 1 ≤ d1.time := by
    have := hclk { db with time := db.time + 1 }
    rw [hd] at this
    exact this
  unfold BaseAgent.run
  simp only [tick, hd, logRun_eq]
  refine ⟨?_, ?_, ?_, ?_, ?_⟩
  · simp [AgentRunResult.success]
  · simp
  · exact Nat.le_trans (Nat.le_succ db.time) htime
  · exact ⟨d1.agent_runs, rfl⟩
  · intro r
    simp [AgentRunResult.success, List.length_eq_zero]

/-- A domain method that raises `boom` at every store without touching
it. -/
def domainRunBoom : DomainRun := fun d => (.error "boom", d)

/-- Witness for C8 at a concrete always-raising domain method. -/
theorem claim_C8_witness :
    (BaseAgent.run "revenue_velocity" "c1" domainRunBoom dbEmpty).1.success
      = false ∧
    (BaseAgent.run "revenue_velocity" "c1" domainRunBoom dbEmpty).1.errors
      ≠ [] ∧
    (BaseAgent.run "revenue_velocity" "c1" domainRunBoom dbEmpty).1.started_at
      ≤ (BaseAgent.run "revenue_velocity" "c1" domainRunBoom dbEmpty).1.finished_at ∧
    (∃ pre,
      (BaseAgent.run "revenue_velocity" "c1" domainRunBoom dbEmpty).2.agent_runs
        = pre ++ [runRecordOf
            (BaseAgent.run "revenue_velocity" "c1" domainRunBoom dbEmpty).1]) ∧
    (∀ r : AgentRunResult, r.success = true ↔ r.errors = []) :=
  claim_C8 "revenue_velocity" "c1" domainRunBoom dbEmpty
    (fun d => ⟨"boom", d, rfl⟩) (fun d => Nat.le_refl d.time)

/-! Helper lemmas about the router. -/

/-- Effect of mark_event_processed on the events table. -/
def markId (i : Nat) (evs : List EventRecord) : List EventRecord :=
  evs.map (fun e => if e.id == i then { e with processed := true } else e)

/-- mark_event_processed only rewrites the events table. -/
theorem mark_event_processed_events (i : Nat) (db : DB) :
    (mark_event_processed i db).events = markId i db.events :=
  rfl

/-- update_agent_config never touches the events table. -/
theorem update_agent_config_events (cid a : String)
    (u : List (String × Value)) (db : DB) :
    ((update_agent_config cid a u db).2).events = db.events := by
  unfold update_agent_config
  split
  · rfl
  · split
    · split
      · simp [tick]
      · rfl
    · rfl

/-- The forecast handler never touches the events table. -/
theorem handleForecastUpdatedForCash_events (cid : String) (p : Value)
    (db : DB) :
    (handleForecastUpdatedForCash cid p db).events = db.events := by
  unfold handleForecastUpdatedForCash
  cases p <;> try rfl
  split
  · split
    · split
      · simp [tick]
      · rfl
    · rfl
  · exfalso
    rename_i hx
    exact hx _ rfl

/-- The cash-alert handler never touches the events table. -/
theorem handleCashAlertForRevenue_events (cid : String) (p : Value)
    (db : DB) :
    (handleCashAlertForRevenue cid p db).events = db.events := by
  unfold handleCashAlertForRevenue
  cases p <;> try rfl
  simp only []
  split
  · rfl
  · split
    · split
      · exact update_agent_config_events _ _ _ _
      · rfl
    · rfl

/-- The CAC handler never touches the events table. -/
theorem handleCacUpdatedForScoring_events (cid : String) (p : Value)
    (db : DB) :
    (handleCacUpdatedForScoring cid p db).events = db.events := by
  unfold handleCacUpdatedForScoring
  cases p <;> try rfl
  simp only []
  split
  · rfl
  · rw [update_agent_config_events, update_agent_config_events]

/-- No registered handler touches the events table. -/
theorem handlersFor_foldl_events (t cid : String) (p : Value) (db : DB) :
    ((handlersFor t).foldl (fun d h => h cid p d) db).events = db.events := by
  unfold handlersFor
  split
  · simp [handleForecastUpdatedForCash_events]
  · split
    · simp [handleCashAlertForRevenue_events]
    · split
      · simp [handleCacUpdatedForScoring_events]
      · simp

/-- Processing one event marks its id in the events table and changes
nothing else there. -/
theorem processOne_events (cid : String) (db : DB) (ev : EventRecord) :
    ((processOne cid db ev).1).events = markId ev.id db.events := by
  unfold processOne
  simp only [mark_event_processed_events]
  rw [handlersFor_foldl_events]

/-- Processing one event invokes exactly the handlers registered for its
type. -/
theorem processOne_snd (cid : String) (db : DB) (ev : EventRecord) :
    (processOne cid db ev).2 = (handlersFor ev.event_type).length :=
  rfl

/-- The drain loop counts every event of the snapshot. -/
theorem drainLoop_count (cid : String) (evs : List EventRecord) :
    ∀ db : DB, (drainLoop cid evs db).1 = evs.length := by
  induction evs with
  | nil => intro db; rfl
  | cons ev rest ih =>
    intro db
    unfold drainLoop
    simp [ih]

/-- The drain loop marks exactly the ids of the snapshot in the events table. -/
theorem drainLoop_events (cid : String) (evs : List EventRecord) :
    ∀ db : DB, ((drainLoop cid evs db).2.1).events
      = evs.foldl (fun acc ev => markId ev.id acc) db.events := by
  induction evs with
  | nil => intro db; rfl
  | cons ev rest ih =>
    intro db
    unfold drainLoop
    simp only []
    rw [ih, processOne_events]
    rfl

/-- The handler-invocation count of the drain loop is the sum over the snapshot
of the number of handlers registered for the type of each event. -/
theorem drainLoop_invocations (cid : String) (evs : List EventRecord) :
    ∀ db : DB, (drainLoop cid evs db).2.2
      = (evs.map (fun ev => (handlersFor ev.event_type).length)).sum := by
  induction evs with
  | nil => intro db; rfl
  | cons ev rest ih =>
    intro db
    unfold drainLoop
    simp [ih, processOne_snd]

/-- Folding markId over a snapshot is a single map that marks every event
whose id occurs in the snapshot. -/
theorem foldl_markId_eq_map (L : List EventRecord) (evs : List EventRecord) :
    L.foldl (fun acc ev => markId ev.id acc) evs
      = evs.map (fun e =>
          if L.any (fun x => x.id == e.id) then { e with processed := true }
          else e) := by
  induction L generalizing evs with
  | nil => simp [markId]
  | cons x L ih =>
    rw [List.foldl_cons, ih]
    unfold markId
    rw [List.map_map]
    have hfun :
        ((fun (e : EventRecord) => if L.any (fun y => y.id == e.id) then { e with processed := true } else e)
          ∘ (fun (e : EventRecord) => if e.id == x.id then { e with processed := true } else e))
        = (fun (e : EventRecord) => if (x :: L).any (fun y => y.id == e.id) then { e with processed := true } else e) := by
      funext e
      by_cases h : e.id = x.id
      · simp [Function.comp, h]
      · simp [Function.comp, List.any_cons, h, Ne.symm h]
    rw [hfun]

/-- Membership is preserved by the sorting insertion. -/
theorem mem_insertByCreated {e a : EventRecord} {l : List EventRecord} :
    a ∈ insertByCreated e l ↔ a = e ∨ a ∈ l := by
  induction l with
  | nil => simp [insertByCreated]
  | cons x xs ih =>
    unfold insertByCreated
    split
    · simp [List.mem_cons]
    · simp only [List.mem_cons, ih]
      tauto

/-- Membership is preserved by the creation-order sort. -/
theorem mem_sortByCreated {a : EventRecord} {l : List EventRecord} :
    a ∈ sortByCreated l ↔ a ∈ l := by
  induction l with
  | nil => simp [sortByCreated]
  | cons x xs ih => simp [sortByCreated, mem_insertByCreated, ih]

/-- The sorting insertion adds one element. -/
theorem length_insertByCreated (e : EventRecord) (l : List EventRecord) :
    (insertByCreated e l).length = l.length + 1 := by
  induction l with
  | nil => rfl
  | cons x xs ih =>
    unfold insertByCreated
    split
    · rfl
    · simp [ih]

/-- The creation-order sort preserves length. -/
theorem length_sortByCreated (l : List EventRecord) :
    (sortByCreated l).length = l.length := by
  induction l with
  | nil => rfl
  | cons x xs ih => simp [sortByCreated, length_insertByCreated, ih]

/-- The creation-order sort of a list is empty iff the list is. -/
theorem sortByCreated_eq_nil {l : List EventRecord} :
    sortByCreated l = [] ↔ l = [] := by
  constructor
  · intro h
    have hl := length_sortByCreated l
    rw [h] at hl
    exact List.length_eq_zero.mp hl.symm
  · rintro rfl
    rfl

/-- After one drain pass, every event of the drained tenant is marked
processed. -/
theorem drain_marks_all (cid : String) (db : DB) :
    ∀ e ∈ ((process_events cid db).2.1).events,
      e.company_id = cid → e.processed = true := by
  intro e he hc
  simp only [process_events] at he
  by_cases hemp : (get_unprocessed_events cid db).isEmpty
  · rw [if_pos hemp] at he
    by_contra hp
    have hp' : e.processed = false := by
      cases h : e.processed
      · rfl
      · exact absurd h hp
    have hmem : e ∈ db.events.filter
        (fun x => x.company_id == cid && x.processed == false) :=
      List.mem_filter.mpr ⟨he, by simp [hc, hp']⟩
    have : get_unprocessed_events cid db = [] := List.isEmpty_iff.mp hemp
    unfold get_unprocessed_events at this
    rw [sortByCreated_eq_nil] at this
    rw [this] at hmem
    exact absurd hmem (List.not_mem_nil e)
  · rw [if_neg hemp] at he
    rw [drainLoop_events, foldl_markId_eq_map] at he
    obtain ⟨q, hq, rfl⟩ := List.mem_map.mp he
    by_cases hqp : q.processed
    · split <;> simp [hqp]
    · have hqc : q.company_id = cid := by
        revert hc
        split <;> exact fun hx => hx
      have hqmem : q ∈ db.events.filter
          (fun x => x.company_id == cid && x.processed == false) :=
        List.mem_filter.mpr ⟨hq, by simp [hqc, hqp]⟩
      have hqs : q ∈ get_unprocessed_events cid db := by
        unfold get_unprocessed_events
        rw [mem_sortByCreated]
        exact hqmem
      have hany : (get_unprocessed_events cid db).any
          (fun x => x.id == q.id) = true :=
        List.any_of_mem hqs (by simp)
      simp [hany]

/-- A drain pass with an empty snapshot returns 0. -/
theorem process_events_zero_of_empty (cid : String) (db : DB)
    (h : get_unprocessed_events cid db = []) :
    (process_events cid db).1 = 0 := by
  simp [process_events, h]

/-- A drain pass counts exactly the unprocessed events of the tenant. -/
theorem process_events_count (cid : String) (db : DB) :
    (process_events cid db).1
      = (db.events.filter
          (fun e => e.company_id == cid && e.processed == false)).length := by
  simp only [process_events]
  by_cases hemp : (get_unprocessed_events cid db).isEmpty
  · rw [if_pos hemp]
    have h : get_unprocessed_events cid db = [] := List.isEmpty_iff.mp hemp
    unfold get_unprocessed_events at h
    rw [sortByCreated_eq_nil] at h
    rw [h]
    rfl
  · rw [if_neg hemp, drainLoop_count]
    unfold get_unprocessed_events
    rw [length_sortByCreated]

/-- A drain pass invokes, in total, the handlers registered for the types
of the events of the snapshot. -/
theorem process_events_invocations (cid : String) (db : DB) :
    (process_events cid db).2.2
      = ((get_unprocessed_events cid db).map
          (fun ev => (handlersFor ev.event_type).length)).sum := by
  simp only [process_events]
  by_cases hemp : (get_unprocessed_events cid db).isEmpty
  · rw [if_pos hemp]
    rw [List.isEmpty_iff.mp hemp]
    rfl
  · rw [if_neg hemp, drainLoop_invocations]

/-- C6: drain is idempotent over its visible effect — draining a tenant
again immediately after a drain, with nothing published in between,
processes zero events. -/
theorem claim_C6 (cid : String) (db : DB) :
    (process_events cid ((process_events cid db).2.1)).1 = 0 := by
  apply process_events_zero_of_empty
  unfold get_unprocessed_events
  rw [sortByCreated_eq_nil, List.filter_eq_nil_iff]
  intro e he
  by_cases hc : e.company_id = cid
  · have hp := drain_marks_all cid db e he hc
    simp [hp]
  · simp [hc]

/-- C7: when every unprocessed event of the tenant has a type with no
routing-table entry, a drain pass counts them all, marks them all
processed, and invokes zero handlers. -/
theorem claim_C7 (cid : String) (db : DB)
    (h : ∀ e ∈ db.events, e.company_id = cid → e.processed = false →
      handlersFor e.event_type = []) :
    (process_events cid db).1
      = (db.events.filter
          (fun e => e.company_id == cid && e.processed == false)).length ∧
    (process_events cid db).2.2 = 0 ∧
    (∀ e ∈ ((process_events cid db).2.1).events,
      e.company_id = cid → e.processed = true) := by
  refine ⟨process_events_count cid db, ?_, drain_marks_all cid db⟩
  rw [process_events_invocations]
  apply List.sum_eq_zero
  intro x hx
  obtain ⟨ev, hev, rfl⟩ := List.mem_map.mp hx
  unfold get_unprocessed_events at hev
  rw [mem_sortByCreated] at hev
  obtain ⟨hmem, hpred⟩ := List.mem_filter.mp hev
  simp only [Bool.and_eq_true, beq_iff_eq] at hpred
  rw [h ev hmem hpred.1 (by simpa using hpred.2)]
  rfl

/-- A concrete unprocessed event whose type is routed to no handler. -/
def evUnknown : EventRecord :=
  { id := 0
    event_type := "mystery"
    company_id := "t1"
    payload := .dict []
    processed := false
    created_at := 0 }

/-- A store holding exactly the unrouted event. -/
def dbEvt : DB := { events := [evUnknown] }

/-- Witness for C7 at a store holding one unrouted unprocessed event. -/
theorem claim_C7_witness :
    (process_events "t1" dbEvt).1
      = (dbEvt.events.filter
          (fun e => e.company_id == "t1" && e.processed == false)).length ∧
    (process_events "t1" dbEvt).2.2 = 0 ∧
    (∀ e ∈ ((process_events "t1" dbEvt).2.1).events,
      e.company_id = "t1" → e.processed = true) :=
  claim_C7 "t1" dbEvt (by
    intro e he _ _
    simp only [dbEvt, List.mem_singleton] at he
    subst he
    rfl)

end AdvisorBot
